import Mathlib

/-!
Verification of the `redbird.sql` core (`src/redbird/sql/expressions.py`):
a shallow embedding of the `Table` accessor, its filter translator
(`to_sql_expressions`), the read-time type bridge (`to_native`), and the
statement-building paths of `select` / `insert` / `update` / `delete` /
`count`, together with a small model of the SQLAlchemy backend capability
(execute a statement, return row mappings).

Modelling conventions:
- Python values flowing through the layer are an inductive `Value`
  (None, bool, int, str, date, datetime).  Float, timedelta and JSON
  columns are not exercised by any claim and are outside the model.
- Fallible Python code returns `Except Err α`; `Err` mirrors the concrete
  exceptions the code can raise (ValueError, TypeError, KeyError,
  AttributeError, and the NotImplementedError raised by the translator).
- SQLAlchemy expressions are the AST `SqlExpr`, exactly the shapes the
  source constructs, with the standard SQL semantics `evalExpr`
  (BETWEEN inclusive on both ends, IN as membership, AND as conjunction).
- The engine/driver is a `Database`: the rows and physical schema of the
  bound table plus the backend behaviour on raw SQL text.
-/

/-- A Python value as it flows through the redbird SQL layer. -/
inductive Value where
  | vNone
  | vBool (b : Bool)
  | vInt (n : Int)
  | vStr (s : String)
  | vDate (y m d : Nat)
  | vDatetime (y m d hh mi ss : Nat)
  deriving DecidableEq, Repr, BEq

/-- Python-level types relevant to `Table.types` / `to_native`
(`sql_type.python_type` in the source). -/
inductive PyType where
  | pStr | pInt | pBool | pDate | pDatetime
  deriving DecidableEq, Repr, BEq

/-- SQLAlchemy column types used by the bound tables
(the subset of the `Table.types` mapping exercised by the claims). -/
inductive SqlType where
  | sString | sInteger | sBoolean | sDate | sDateTime
  deriving DecidableEq, Repr, BEq

/-- `sql_type.python_type` of SQLAlchemy: the native type a column type
converts to. -/
def SqlType.python_type : SqlType → PyType
  | .sString => .pStr
  | .sInteger => .pInt
  | .sBoolean => .pBool
  | .sDate => .pDate
  | .sDateTime => .pDatetime

/-- Python `isinstance(value, py_type)`, including the stdlib subtyping
facts the source relies on: `bool` is a subclass of `int`, and
`datetime.datetime` is a subclass of `datetime.date`. -/
def isinstance : Value → PyType → Bool
  | .vBool _, .pBool => true
  | .vBool _, .pInt => true
  | .vInt _, .pInt => true
  | .vStr _, .pStr => true
  | .vDate _ _ _, .pDate => true
  | .vDatetime _ _ _ _ _ _, .pDatetime => true
  | .vDatetime _ _ _ _ _ _, .pDate => true
  | _, _ => false

/-- Is this value a Python `str`? -/
def Value.isStr : Value → Bool
  | .vStr _ => true
  | _ => false

/-- The deferred-comparison operations of `redbird.oper`.

Modelled from the spec: the module `redbird/oper.py` (imported by the
source as `Between`, `In`, `Operation`, `skip`) is not under `src/`.
Per spec section 3, an Operation is a tagged deferred comparison:
`Between(start, end)`, `In(values)`, `Skip`, or a generic comparator
carrying an operator tag and a value.  The source dispatches on the
class of the operation and, for generic comparators, on the presence of
a `__py_magic__` attribute naming the column magic method; `comp tag v`
models a generic comparator whose `__py_magic__` is `py_magic_of tag`. -/
inductive Operation where
  | between (start stop : Value)
  | inValues (values : List Value)
  | skip
  | comp (tag : String) (value : Value)
  deriving DecidableEq, Repr, BEq

/-- Modelled from the spec: the `__py_magic__` attribute of the generic
comparator operations of `redbird/oper.py` (not under `src/`), for the
operator tags the spec lists (`>=, <=, >, <, !=`).  An operation with an
unlisted tag has no `__py_magic__` attribute. -/
def py_magic_of : String → Option String
  | ">=" => some "__ge__"
  | "<=" => some "__le__"
  | ">" => some "__gt__"
  | "<" => some "__lt__"
  | "!=" => some "__ne__"
  | _ => none

/-- One value of a filter mapping: either a plain native value (implies
equality) or an `Operation`. -/
inductive FilterVal where
  | value (v : Value)
  | oper (o : Operation)
  deriving DecidableEq, Repr, BEq

/-- A filter mapping (Python `dict`): column name to value-or-operation,
in insertion order. -/
abbrev RbFilter := List (String × FilterVal)

/-- Errors raised by the embedded code.  The first five mirror concrete
Python exceptions.  `typeCoercion` is modelled from the spec: the
`TypeCoercionError` of spec sections 4.2 and 7 (an error naming the
column and the source and target types); it is defined here so that
claims about it are statable — the source never constructs it. -/
inductive Err where
  | valueError (msg : String)
  | typeError (msg : String)
  | keyError (key : String)
  | attributeError (msg : String)
  | notImplementedOperator (oper : Operation)
  | typeCoercion (column : String) (src tgt : String)
  deriving DecidableEq, Repr, BEq

/-- The SQLAlchemy boolean expressions the source constructs:
`sqlalchemy.true()`, `column == value`, `column.between(a, b)`,
`column.in_(values)`, a comparator magic method applied to a value, and
conjunction (`&`). -/
inductive SqlExpr where
  | true_
  | eq (col : String) (v : Value)
  | between (col : String) (start stop : Value)
  | inList (col : String) (values : List Value)
  | compMagic (col : String) (magic : String) (v : Value)
  | and (l r : SqlExpr)
  deriving DecidableEq, Repr, BEq

/-- Lexicographic key of a date. -/
def dateKey (y m d : Nat) : Nat := (y * 100 + m) * 100 + d

/-- Lexicographic key of a datetime. -/
def datetimeKey (y m d hh mi ss : Nat) : Nat :=
  ((dateKey y m d * 100 + hh) * 100 + mi) * 100 + ss

/-- SQL `<=` on same-typed values (the comparisons the claims exercise:
integers, strings, dates, datetimes). -/
def Value.le : Value → Value → Bool
  | .vInt a, .vInt b => decide (a ≤ b)
  | .vStr a, .vStr b => decide (a ≤ b)
  | .vDate y m d, .vDate y2 m2 d2 => decide (dateKey y m d ≤ dateKey y2 m2 d2)
  | .vDatetime y m d h i s, .vDatetime y2 m2 d2 h2 i2 s2 =>
      decide (datetimeKey y m d h i s ≤ datetimeKey y2 m2 d2 h2 i2 s2)
  | _, _ => false

/-- SQL `<` on same-typed values. -/
def Value.lt : Value → Value → Bool
  | .vInt a, .vInt b => decide (a < b)
  | .vStr a, .vStr b => decide (a < b)
  | .vDate y m d, .vDate y2 m2 d2 => decide (dateKey y m d < dateKey y2 m2 d2)
  | .vDatetime y m d h i s, .vDatetime y2 m2 d2 h2 i2 s2 =>
      decide (datetimeKey y m d h i s < datetimeKey y2 m2 d2 h2 i2 s2)
  | _, _ => false

/-- Semantics of a comparator magic method `column.__xx__(value)` where
the first argument is the cell value of the column and the second the
literal. -/
def magicSem (magic : String) (cell lit : Value) : Bool :=
  if magic == "__ge__" then Value.le lit cell
  else if magic == "__le__" then Value.le cell lit
  else if magic == "__gt__" then Value.lt lit cell
  else if magic == "__lt__" then Value.lt cell lit
  else if magic == "__ne__" then !(cell == lit)
  else false

/-- Standard SQL semantics of the expression tree over one row (the row
given as a column-name-to-value function): BETWEEN is inclusive on both
ends, IN is membership, AND is boolean conjunction. -/
def evalExpr (row : String → Value) : SqlExpr → Bool
  | .true_ => true
  | .eq c v => row c == v
  | .between c a b => Value.le a (row c) && Value.le (row c) b
  | .inList c vs => vs.contains (row c)
  | .compMagic c magic v => magicSem magic (row c) v
  | .and l r => evalExpr row l && evalExpr row r

/-- The loop of `Table.to_sql_expressions` (source lines 277-301): the
accumulator `stmt` starts as `sqlalchemy.true()` and each pair
contributes one conjunct via `stmt &= sql_oper`; `skip` contributes
nothing; a generic comparator without a `__py_magic__` attribute raises
`NotImplementedError` naming the operation. -/
def to_sql_expressions_from (stmt : SqlExpr) : RbFilter → Except Err SqlExpr
  | [] => .ok stmt
  | (column_name, oper_or_value) :: rest =>
    match oper_or_value with
    | .oper oper =>
      match oper with
      | .between a b => to_sql_expressions_from (stmt.and (.between column_name a b)) rest
      | .inValues vs => to_sql_expressions_from (stmt.and (.inList column_name vs)) rest
      | .skip => to_sql_expressions_from stmt rest
      | .comp tag v =>
        match py_magic_of tag with
        | some magic => to_sql_expressions_from (stmt.and (.compMagic column_name magic v)) rest
        | none => .error (.notImplementedOperator (.comp tag v))
    | .value v => to_sql_expressions_from (stmt.and (.eq column_name v)) rest

/-- `Table.to_sql_expressions` with its default `table=None` (as all the
call sites in `select` / `update` / `delete` / `count` invoke it):
columns are plain unqualified `sqlalchemy.Column` references. -/
def to_sql_expressions (qry : RbFilter) : Except Err SqlExpr :=
  to_sql_expressions_from .true_ qry

/-- Split a character list on a separator character, like Python
`str.split(sep)`. -/
def splitChars (sep : Char) : List Char → List (List Char)
  | [] => [[]]
  | c :: cs =>
    let r := splitChars sep cs
    if c == sep then [] :: r
    else
      match r with
      | [] => [[c]]
      | g :: gs => (c :: g) :: gs

def natOfDigitsAux (acc : Nat) : List Char → Option Nat
  | [] => some acc
  | c :: cs => if c.isDigit then natOfDigitsAux (acc * 10 + (c.toNat - 48)) cs else none

/-- The numeric value of a non-empty all-digit character run. -/
def natOfDigits : List Char → Option Nat
  | [] => none
  | cs => natOfDigitsAux 0 cs

/-- The date part `YYYY-MM-DD` of an ISO string (with a coarse
day-of-month upper bound of 31 standing in for the per-month bound of
the stdlib). -/
def date_from_chars (cs : List Char) : Option (Nat × Nat × Nat) :=
  match splitChars '-' cs with
  | [ys, ms, ds] =>
    match natOfDigits ys, natOfDigits ms, natOfDigits ds with
    | some y, some m, some d =>
      if ys.length == 4 && ms.length == 2 && ds.length == 2
          && 1 ≤ m && m ≤ 12 && 1 ≤ d && d ≤ 31 then some (y, m, d)
      else none
    | _, _, _ => none
  | _ => none

/-- Python `date.fromisoformat`: parses exactly `YYYY-MM-DD`, raising
`ValueError` on anything else. -/
def date_fromisoformat (s : String) : Except Err Value :=
  match date_from_chars s.data with
  | some (y, m, d) => .ok (.vDate y m d)
  | none => .error (.valueError ("Invalid isoformat string: " ++ s))

/-- Parse the `HH:MM:SS` time part of an ISO datetime string. -/
def time_from_iso (cs : List Char) : Option (Nat × Nat × Nat) :=
  match splitChars ':' cs with
  | [hs, ms, ss] =>
    match natOfDigits hs, natOfDigits ms, natOfDigits ss with
    | some h, some m, some sec =>
      if hs.length == 2 && ms.length == 2 && ss.length == 2
          && h ≤ 23 && m ≤ 59 && sec ≤ 59 then some (h, m, sec)
      else none
    | _, _, _ => none
  | _ => none

/-- Python `datetime.fromisoformat`: a date `YYYY-MM-DD`, optionally
followed by a one-character separator and a time part (the model accepts
the `HH:MM:SS` time shape; sub-second precision and offsets are outside
the model, as is validation of the separator character). -/
def datetime_fromisoformat (s : String) : Except Err Value :=
  let cs := s.data
  if cs.length == 10 then
    match date_from_chars cs with
    | some (y, m, d) => .ok (.vDatetime y m d 0 0 0)
    | none => .error (.valueError ("Invalid isoformat string: " ++ s))
  else
    match date_from_chars (cs.take 10), time_from_iso (cs.drop 11) with
    | some (y, m, d), some (hh, mi, ss) => .ok (.vDatetime y m d hh mi ss)
    | _, _ => .error (.valueError ("Invalid isoformat string: " ++ s))

/-- Zero-pad a numeral to two digits. -/
def pad2 (n : Nat) : String := if n < 10 then "0" ++ toString n else toString n

/-- Python `str(value)`. -/
def pyStrOfValue : Value → String
  | .vNone => "None"
  | .vBool b => if b then "True" else "False"
  | .vInt n => toString n
  | .vStr s => s
  | .vDate y m d => toString y ++ "-" ++ pad2 m ++ "-" ++ pad2 d
  | .vDatetime y m d hh mi ss =>
      toString y ++ "-" ++ pad2 m ++ "-" ++ pad2 d ++ " "
        ++ pad2 hh ++ ":" ++ pad2 mi ++ ":" ++ pad2 ss

/-- Python truthiness `bool(value)`. -/
def pyTruth : Value → Bool
  | .vNone => false
  | .vBool b => b
  | .vInt n => !(n == 0)
  | .vStr s => !(s.length == 0)
  | .vDate _ _ _ => true
  | .vDatetime _ _ _ _ _ _ => true

/-- Python `int(s)` on a string: an optional minus sign followed by
digits (surrounding whitespace and a plus sign are outside the model). -/
def intOfChars : List Char → Option Int
  | '-' :: rest => (natOfDigits rest).map (fun n => -(n : Int))
  | cs => (natOfDigits cs).map (fun n => (n : Int))

/-- Direct Python type construction `py_type(value)`, as the final line
of `to_native` performs it: `str()` and `bool()` always succeed,
`int()` accepts ints, bools and integer literals (raising `ValueError`
on other strings and `TypeError` on non-number non-strings), and the
`date` / `datetime` constructors require year, month and day arguments,
hence raise `TypeError` when handed one positional value. -/
def pyConstruct (t : PyType) (v : Value) : Except Err Value :=
  match t, v with
  | .pStr, v => .ok (.vStr (pyStrOfValue v))
  | .pBool, v => .ok (.vBool (pyTruth v))
  | .pInt, .vBool b => .ok (.vInt (if b then 1 else 0))
  | .pInt, .vInt n => .ok (.vInt n)
  | .pInt, .vStr s =>
    match intOfChars s.data with
    | some n => .ok (.vInt n)
    | none => .error (.valueError ("invalid literal for int with base 10: " ++ s))
  | .pInt, _ => .error (.typeError "int argument must be a string or a number")
  | .pDate, _ => .error (.typeError "date constructor missing required arguments")
  | .pDatetime, _ => .error (.typeError "datetime constructor missing required arguments")

/-- `to_native` (source lines 504-515): convert one result-set cell to
the native type declared by the column.  A value already of the declared
type is returned unchanged; a string under a datetime or date column is
parsed with `fromisoformat`; a null under a nullable column passes; any
other value is handed to the direct type constructor. -/
def to_native (value : Value) (sql_type : SqlType) (nullable : Bool) : Except Err Value :=
  let py_type := sql_type.python_type
  if isinstance value py_type then .ok value
  else
    match py_type, value with
    | .pDatetime, .vStr s => datetime_fromisoformat s
    | .pDate, .vStr s => date_fromisoformat s
    | _, _ =>
      if nullable && value == .vNone then .ok value
      else pyConstruct py_type value

/-- A result-set row as the driver delivers it: a mapping from column
name to value, in column order. -/
abbrev Row := List (String × Value)

/-- Row cell lookup as used by SQL expression evaluation (a column absent
from the row reads as SQL NULL). -/
def Row.get (r : Row) (c : String) : Value :=
  match r.find? (fun kv => kv.1 == c) with
  | some kv => kv.2
  | none => .vNone

/-- Python `row[name]` on a result-row mapping: raises `KeyError` when
the column is absent. -/
def lookupRow (row : Row) (name : String) : Except Err Value :=
  match row.find? (fun kv => kv.1 == name) with
  | some kv => .ok kv.2
  | none => .error (.keyError name)

/-- One column of a reflected or created table schema: name, SQLAlchemy
type, nullability. -/
structure ColumnSchema where
  name : String
  type_ : SqlType
  nullable : Bool
  deriving DecidableEq, Repr, BEq

/-- A `sqlalchemy.Table` object: the resolved schema handle. -/
structure TableSchema where
  name : String
  columns : List ColumnSchema
  deriving DecidableEq, Repr, BEq

/-- The backend (engine plus the physical database): the bound table
plus the behaviour of the driver on raw SQL.  `runRaw` is what executing
raw SQL text as a complete statement returns; `rawWhere` is how the
backend interprets raw text used as a where clause (the permissive
string-to-clause coercion of SQLAlchemy 1.x). -/
structure Database where
  schema : TableSchema
  rows : List Row
  runRaw : String → List Row
  rawWhere : String → Row → Bool

/-- The connection handle held by a `Table`: either a plain
`sqlalchemy.engine.Engine` (no transaction machinery) or a
`Connection`, which may or may not have an open transaction. -/
inductive EngineConn where
  | engine
  | conn (transaction : Option Unit)
  deriving DecidableEq, Repr, BEq

/-- The mutable state of a `Table` accessor: the `_name` and `_object`
attributes and the connection handle. -/
structure TableState where
  _name : Option String
  _object : Option TableSchema
  engine : EngineConn
  deriving DecidableEq, Repr, BEq

/-- The `Table.name` property getter: the name of the resolved object if
present, the stored `_name` otherwise (source lines 492-496). -/
def TableState.nameOf (s : TableState) : Option String :=
  match s._object with
  | some t => some t.name
  | none => s._name

/-- The `Table.name` property setter (source lines 498-501): stores the
name and drops the cached schema handle. -/
def Table.setName (s : TableState) (value : Option String) : TableState :=
  { s with _name := value, _object := none }

/-- The `Table.object` property setter (source lines 487-490): stores
the given `sqlalchemy.Table` as the schema handle and adopts its name. -/
def Table.setObject (s : TableState) (value : TableSchema) : TableState :=
  { s with _object := some value, _name := some value.name }

/-- `Table.__init__` (source lines 77-79): assigns the engine and goes
through the `name` setter. -/
def Table.init (table : Option String) (eng : EngineConn := .engine) : TableState :=
  Table.setName { _name := none, _object := none, engine := eng } table

/-- `reflect_table` (source lines 520-524): ask the backend for the
physical schema of the named table.  The model database holds a single
table, which reflection returns under the requested name; reflecting
with no table name fails, as `sqlalchemy.Table(None, ...)` does. -/
def reflect_table (db : Database) (table : Option String) : Except Err TableSchema :=
  match table with
  | none => .error (.typeError "table name is None")
  | some nm => .ok { db.schema with name := nm }

/-- `Table.reflect` (source lines 337-338): `self._object =
reflect_table(self.name, engine=self.engine)`. -/
def Table.reflect (db : Database) (s : TableState) : Except Err Unit × TableState :=
  match reflect_table db s.nameOf with
  | .ok t => (.ok (), { s with _object := some t })
  | .error e => (.error e, s)

/-- The `Table.object` property getter (source lines 480-485): return
the cached schema handle, lazily reflecting first when it is absent. -/
def resolveObject (db : Database) (s : TableState) : Except Err TableSchema × TableState :=
  match s._object with
  | some t => (.ok t, s)
  | none =>
    match reflect_table db s.nameOf with
    | .ok t => (.ok t, { s with _object := some t })
    | .error e => (.error e, s)

/-- `Table.create` (source lines 340-408) after column normalization:
builds a new `sqlalchemy.Table` under the current name, creates it on
the backend, and replaces the cached schema handle with it. -/
def Table.create (s : TableState) (columns : List ColumnSchema) : Except Err Unit × TableState :=
  match s.nameOf with
  | none => (.error (.typeError "table name is None"), s)
  | some nm => (.ok (), { s with _object := some { name := nm, columns := columns } })

/-- The cell-conversion loop of `Table._format_results` /
`Table._get_types` (source lines 266-275): for each schema column, read
`row[name]` and convert it with `to_native` under the declared type and
nullability. -/
def formatCells (row : Row) : List ColumnSchema → Except Err Row
  | [] => .ok []
  | c :: cs =>
    match lookupRow row c.name with
    | .error e => .error e
    | .ok v =>
      match to_native v c.type_ c.nullable with
      | .error e => .error e
      | .ok v2 =>
        match formatCells row cs with
        | .error e => .error e
        | .ok rest => .ok ((c.name, v2) :: rest)

/-- Convert one result row per the schema handle (`_format_results`,
one iteration). -/
def formatRow (tbl : TableSchema) (row : Row) : Except Err Row :=
  formatCells row tbl.columns

/-- `Table._format_results` (source lines 266-270), materialized: every
result row converted per the declared column types. -/
def formatResults (tbl : TableSchema) : List Row → Except Err (List Row)
  | [] => .ok []
  | r :: rest =>
    match formatRow tbl r with
    | .error e => .error e
    | .ok r2 =>
      match formatResults tbl rest with
      | .error e => .error e
      | .ok rest2 => .ok (r2 :: rest2)

/-- The `qry` argument of `Table.select` / `Table.count`: absent, raw
backend text, a filter mapping, or a pre-built SQLAlchemy expression. -/
inductive Query where
  | none
  | raw (q : String)
  | mapping (m : RbFilter)
  | expr (e : SqlExpr)
  deriving Repr

/-- Is this the raw-text query form? -/
def Query.isRaw : Query → Bool
  | .raw _ => true
  | _ => false

/-- The `where` argument of `Table.delete` / `Table.update` (a required
argument: raw text, a filter mapping, or a pre-built expression). -/
inductive WhereArg where
  | raw (q : String)
  | mapping (m : RbFilter)
  | expr (e : SqlExpr)
  deriving Repr

/-- A where clause as it reaches the backend: either a proper expression
or raw text coerced into a clause. -/
inductive WhereClause where
  | clause (e : SqlExpr)
  | rawText (q : String)
  deriving DecidableEq, Repr, BEq

/-- Backend semantics of a where clause on one row. -/
def whereSem (db : Database) (r : Row) : WhereClause → Bool
  | .clause e => evalExpr (Row.get r) e
  | .rawText q => db.rawWhere q r

/-- Resolve the `columns` argument of `select` against
`self.object.columns` (source lines 150-156): `None` means all columns
(`columns = ()`), a listed column absent from the table raises
`KeyError`. -/
def resolveCols (tbl : TableSchema) : Option (List String) → Except Err (List String)
  | Option.none => .ok []
  | some cs => cs.mapM (fun c => if tbl.columns.any (fun col => col.name == c) then .ok c else .error (.keyError c))

/-- Projection of one result row onto the selected columns (an empty
selection means all columns, as in `table.select(*columns)` with
`columns = ()`). -/
def projectRow (cols : List String) (r : Row) : Row :=
  match cols with
  | [] => r
  | cs => cs.map (fun c => (c, Row.get r c))

/-- `Table.select` (source lines 81-165).  `None` becomes
`sqlalchemy.true()`; a dict is translated by `to_sql_expressions`; a
string becomes `sqlalchemy.text(qry)` executed as the whole statement
(the backend result is `db.runRaw qry`); otherwise the argument is the
where clause of a select over the bound table.  When `self.name` is not
`None` the rows pass through `_format_results` (which resolves the
schema handle); otherwise they are returned as delivered. -/
def Table.select (db : Database) (s : TableState) (qry : Query)
    (columns : Option (List String) := Option.none) : Except Err (List Row) × TableState :=
  let qryT : Except Err (Sum String SqlExpr) :=
    match qry with
    | .none => .ok (.inr SqlExpr.true_)
    | .raw q => .ok (.inl q)
    | .mapping m => (to_sql_expressions m).map .inr
    | .expr e => .ok (.inr e)
  match qryT with
  | .error e => (.error e, s)
  | .ok (.inl q) =>
    let rows := db.runRaw q
    match s.nameOf with
    | Option.none => (.ok rows, s)
    | some _ =>
      match resolveObject db s with
      | (.error e, s2) => (.error e, s2)
      | (.ok tbl, s2) => (formatResults tbl rows, s2)
  | .ok (.inr w) =>
    match resolveObject db s with
    | (.error e, s2) => (.error e, s2)
    | (.ok tbl, s2) =>
      match resolveCols tbl columns with
      | .error e => (.error e, s2)
      | .ok cols =>
        let rows := (db.rows.filter (fun r => evalExpr (Row.get r) w)).map (projectRow cols)
        match s2.nameOf with
        | Option.none => (.ok rows, s2)
        | some _ => (formatResults tbl rows, s2)

/-- `Table.count` (source lines 237-264): builds
`select(count()).select_from(self.object)` (resolving the schema handle
first), attaches the optional where clause (a dict is translated, raw
text is coerced into the clause), executes, and extracts
`list(result)[0][0]` — the number of matching rows. -/
def Table.count (db : Database) (s : TableState) (w : Query) : Except Err Int × TableState :=
  match resolveObject db s with
  | (.error e, s2) => (.error e, s2)
  | (.ok _, s2) =>
    let ow : Except Err (Option WhereClause) :=
      match w with
      | .none => .ok Option.none
      | .mapping m => (to_sql_expressions m).map (fun e => some (.clause e))
      | .raw q => .ok (some (.rawText q))
      | .expr e => .ok (some (.clause e))
    match ow with
    | .error e => (.error e, s2)
    | .ok Option.none => (.ok (Int.ofNat db.rows.length), s2)
    | .ok (some wc) =>
      (.ok (Int.ofNat (db.rows.filter (fun r => whereSem db r wc)).length), s2)

/-- The delete statement passed to `self.execute`:
`table.delete().where(where)`. -/
structure DeleteStmt where
  table : TableSchema
  whereClause : WhereClause
  deriving DecidableEq, Repr, BEq

/-- The update statement passed to `self.execute`:
`table.update().where(where).values(values)`. -/
structure UpdateStmt where
  table : TableSchema
  whereClause : WhereClause
  values : Row
  deriving DecidableEq, Repr, BEq

/-- `Table.delete` (source lines 172-201): a dict where-argument is
translated by `to_sql_expressions`; anything else is passed through into
the where clause; the statement is built against `self.object`
(resolving the schema handle) and handed to the backend. -/
def Table.delete (db : Database) (s : TableState) (w : WhereArg) :
    Except Err DeleteStmt × TableState :=
  let wc : Except Err WhereClause :=
    match w with
    | .mapping m => (to_sql_expressions m).map .clause
    | .raw q => .ok (.rawText q)
    | .expr e => .ok (.clause e)
  match wc with
  | .error e => (.error e, s)
  | .ok wc =>
    match resolveObject db s with
    | (.error e, s2) => (.error e, s2)
    | (.ok tbl, s2) => (.ok { table := tbl, whereClause := wc }, s2)

/-- `Table.update` (source lines 203-235): same where handling as
`delete`, plus the values mapping. -/
def Table.update (db : Database) (s : TableState) (w : WhereArg) (values : Row) :
    Except Err UpdateStmt × TableState :=
  let wc : Except Err WhereClause :=
    match w with
    | .mapping m => (to_sql_expressions m).map .clause
    | .raw q => .ok (.rawText q)
    | .expr e => .ok (.clause e)
  match wc with
  | .error e => (.error e, s)
  | .ok wc =>
    match resolveObject db s with
    | (.error e, s2) => (.error e, s2)
    | (.ok tbl, s2) => (.ok { table := tbl, whereClause := wc, values := values }, s2)

/-- `Table.insert` (source lines 167-170): builds
`self.object.insert().values(**data)` (resolving the schema handle) and
executes it. -/
def Table.insert (db : Database) (s : TableState) (data : Row) :
    Except Err (TableSchema × Row) × TableState :=
  match resolveObject db s with
  | (.error e, s2) => (.error e, s2)
  | (.ok tbl, s2) => (.ok (tbl, data), s2)

/-- Is a transaction open on the connection handle? -/
def TableState.hasOpenTransaction (s : TableState) : Bool :=
  match s.engine with
  | .conn (some _) => true
  | _ => false

/-- `Table.rollback` (source lines 463-465):
`self.connection.get_transaction().rollback()`.  A plain engine has no
`get_transaction` attribute; a connection with no open transaction
returns `None` from `get_transaction`, and `None` has no `rollback`
attribute — either way an `AttributeError` is raised. -/
def Table.rollback (s : TableState) : Except Err Unit :=
  match s.engine with
  | .engine => .error (.attributeError "Engine object has no attribute get_transaction")
  | .conn Option.none => .error (.attributeError "NoneType object has no attribute rollback")
  | .conn (some _) => .ok ()

/-- `Table.commit` (source lines 467-469): same access path as
`rollback`. -/
def Table.commit (s : TableState) : Except Err Unit :=
  match s.engine with
  | .engine => .error (.attributeError "Engine object has no attribute get_transaction")
  | .conn Option.none => .error (.attributeError "NoneType object has no attribute commit")
  | .conn (some _) => .ok ()

/-- The operations of the accessor surface, as they act on the accessor
state (the claims about the schema-handle state machine quantify over
these). -/
inductive TableOp where
  | setName (v : Option String)
  | setObject (t : TableSchema)
  | createOp (cols : List ColumnSchema)
  | reflectOp
  | selectOp (q : Query) (cols : Option (List String))
  | insertOp (data : Row)
  | deleteOp (w : WhereArg)
  | updateOp (w : WhereArg) (values : Row)
  | countOp (q : Query)
  | executeOp (q : String)
  | rollbackOp
  | commitOp
  | openTransactionOp

/-- State transition of one accessor operation (the result value, if
any, is discarded; `execute`, `rollback`, `commit` and
`open_transaction` never touch `_name` or `_object` of this accessor —
`open_transaction` hands out a copy). -/
def step (db : Database) (op : TableOp) (s : TableState) : TableState :=
  match op with
  | .setName v => Table.setName s v
  | .setObject t => Table.setObject s t
  | .createOp cols => (Table.create s cols).2
  | .reflectOp => (Table.reflect db s).2
  | .selectOp q cols => (Table.select db s q cols).2
  | .insertOp data => (Table.insert db s data).2
  | .deleteOp w => (Table.delete db s w).2
  | .updateOp w values => (Table.update db s w values).2
  | .countOp q => (Table.count db s q).2
  | .executeOp _ => s
  | .rollbackOp => s
  | .commitOp => s
  | .openTransactionOp => s

/-- Is the operation an explicit `create` or `reflect`? -/
def TableOp.isCreateOrReflect : TableOp → Bool
  | .createOp _ => true
  | .reflectOp => true
  | _ => false

/-- Is the operation a structural access, i.e. one that reads
`self.object` and may therefore lazily trigger reflection? -/
def TableOp.isStructuralAccess : TableOp → Bool
  | .selectOp _ _ => true
  | .insertOp _ => true
  | .deleteOp _ => true
  | .updateOp _ _ => true
  | .countOp _ => true
  | _ => false

/-- Specification-side semantics of one filter pair (spec sections 3, 4.1
and 8): a plain value means equality, `Between` is inclusive on both
ends, `In` is membership, `Skip` contributes no constraint, and a
generic comparator applies its operator. -/
def pairSpec (row : String → Value) : String × FilterVal → Bool
  | (c, .value v) => row c == v
  | (c, .oper (.between a b)) => Value.le a (row c) && Value.le (row c) b
  | (c, .oper (.inValues vs)) => vs.contains (row c)
  | (_, .oper .skip) => true
  | (c, .oper (.comp tag v)) =>
    match py_magic_of tag with
    | some m => magicSem m (row c) v
    | none => true

/-- A pair of the three forms claim C1 enumerates: a plain value, a
`Between`, or an `In`. -/
def isBasicPair : String × FilterVal → Bool
  | (_, .value _) => true
  | (_, .oper (.between _ _)) => true
  | (_, .oper (.inValues _)) => true
  | _ => false

/-- A pair the translator accepts without raising: everything except a
generic comparator with an unrecognized operator tag. -/
def translatablePair : String × FilterVal → Bool
  | (_, .oper (.comp tag _)) => (py_magic_of tag).isSome
  | _ => true

theorem basic_translatable (p : String × FilterVal) (h : isBasicPair p = true) :
    translatablePair p = true := by
  obtain ⟨c, fv⟩ := p
  cases fv with
  | value v => rfl
  | oper o => cases o <;> simp_all [isBasicPair, translatablePair]

theorem all_eq_of_perm {α : Type} {p : α → Bool} {l1 l2 : List α} (h : l1.Perm l2) :
    l1.all p = l2.all p := by
  induction h with
  | nil => rfl
  | cons x _ ih => simp [List.all_cons, ih]
  | swap x y l => simp [List.all_cons, Bool.and_left_comm]
  | trans _ _ ih1 ih2 => exact ih1.trans ih2

theorem to_sql_expressions_from_ok (qry : RbFilter)
    (h : ∀ p ∈ qry, translatablePair p = true) (stmt : SqlExpr) :
    ∃ e, to_sql_expressions_from stmt qry = .ok e ∧
      ∀ row : String → Value,
        evalExpr row e = (evalExpr row stmt && qry.all (pairSpec row)) := by
  induction qry generalizing stmt with
  | nil => exact ⟨stmt, rfl, fun row => by simp⟩
  | cons p rest ih =>
    obtain ⟨c, fv⟩ := p
    have hhead : translatablePair (c, fv) = true := h (c, fv) (List.mem_cons_self _ _)
    have hrest : ∀ q ∈ rest, translatablePair q = true :=
      fun q hq => h q (List.mem_cons_of_mem _ hq)
    cases fv with
    | value v =>
      obtain ⟨e, he, hev⟩ := ih hrest (stmt.and (.eq c v))
      refine ⟨e, he, fun row => ?_⟩
      rw [hev row]
      simp [evalExpr, pairSpec, List.all_cons, Bool.and_assoc]
    | oper o =>
      cases o with
      | between a b =>
        obtain ⟨e, he, hev⟩ := ih hrest (stmt.and (.between c a b))
        refine ⟨e, he, fun row => ?_⟩
        rw [hev row]
        simp [evalExpr, pairSpec, List.all_cons, Bool.and_assoc]
      | inValues vs =>
        obtain ⟨e, he, hev⟩ := ih hrest (stmt.and (.inList c vs))
        refine ⟨e, he, fun row => ?_⟩
        rw [hev row]
        simp [evalExpr, pairSpec, List.all_cons, Bool.and_assoc]
      | skip =>
        obtain ⟨e, he, hev⟩ := ih hrest stmt
        refine ⟨e, he, fun row => ?_⟩
        rw [hev row]
        simp [pairSpec, List.all_cons]
      | comp tag v =>
        cases hm : py_magic_of tag with
        | none => exact absurd hhead (by simp [translatablePair, hm])
        | some magic =>
          obtain ⟨e, he, hev⟩ := ih hrest (stmt.and (.compMagic c magic v))
          refine ⟨e, ?_, fun row => ?_⟩
          · simpa [to_sql_expressions_from, hm] using he
          · rw [hev row]
            simp [evalExpr, pairSpec, List.all_cons, Bool.and_assoc, hm]

/-- C1: the filter translator turns `Between(start, stop)` into an
inclusive `column BETWEEN start AND stop`, `In(values)` into
`column IN (values)`, and a plain value into `column == value`, and
conjoins the per-pair expressions with AND, so that on every row the
translated filter holds exactly when every pair holds — and a
permutation of the keys translates to an expression with the same
row-by-row semantics. -/
theorem c1_filter_translation (qry qry2 : RbFilter)
    (hbasic : qry.all isBasicPair = true) (hperm : qry.Perm qry2) :
    ∃ e e2, to_sql_expressions qry = .ok e ∧ to_sql_expressions qry2 = .ok e2 ∧
      (∀ row : String → Value, evalExpr row e = qry.all (pairSpec row)) ∧
      (∀ row : String → Value, evalExpr row e2 = evalExpr row e) := by
  have htr : ∀ p ∈ qry, translatablePair p = true :=
    fun p hp => basic_translatable p (List.all_eq_true.mp hbasic p hp)
  have htr2 : ∀ p ∈ qry2, translatablePair p = true :=
    fun p hp => htr p (hperm.mem_iff.mpr hp)
  obtain ⟨e, he, hev⟩ := to_sql_expressions_from_ok qry htr .true_
  obtain ⟨e2, he2, hev2⟩ := to_sql_expressions_from_ok qry2 htr2 .true_
  refine ⟨e, e2, he, he2, fun row => ?_, fun row => ?_⟩
  · rw [hev row]; simp [evalExpr]
  · rw [hev2 row, hev row, all_eq_of_perm hperm]

/-- Witness for C1: a concrete two-key filter (a `Between` and a plain
equality) and its key permutation. -/
theorem c1_filter_translation_witness :
    ∃ e e2,
      to_sql_expressions [("score", FilterVal.oper (.between (.vInt 100) (.vInt 220))),
        ("name", FilterVal.value (.vStr "John"))] = .ok e ∧
      to_sql_expressions [("name", FilterVal.value (.vStr "John")),
        ("score", FilterVal.oper (.between (.vInt 100) (.vInt 220)))] = .ok e2 ∧
      (∀ row : String → Value, evalExpr row e =
        List.all [("score", FilterVal.oper (.between (.vInt 100) (.vInt 220))),
          ("name", FilterVal.value (.vStr "John"))] (pairSpec row)) ∧
      (∀ row : String → Value, evalExpr row e2 = evalExpr row e) :=
  c1_filter_translation
    [("score", FilterVal.oper (.between (.vInt 100) (.vInt 220))),
      ("name", FilterVal.value (.vStr "John"))]
    [("name", FilterVal.value (.vStr "John")),
      ("score", FilterVal.oper (.between (.vInt 100) (.vInt 220)))]
    (by decide) (by decide)

/-- C4: translating the empty filter mapping yields the tautology
`sqlalchemy.true()`, `select` with the empty mapping is the very same
computation as `select` with no filter, and the tautological where
clause filters out no row of the table. -/
theorem c4_empty_filter (db : Database) (s : TableState) (cols : Option (List String)) :
    to_sql_expressions [] = .ok SqlExpr.true_ ∧
    Table.select db s (.mapping []) cols = Table.select db s .none cols ∧
    db.rows.filter (fun r => evalExpr (Row.get r) SqlExpr.true_) = db.rows := by
  refine ⟨rfl, rfl, ?_⟩
  simp [evalExpr]

theorem to_sql_expressions_from_error (c tag : String) (v : Value) (post : RbFilter)
    (htag : py_magic_of tag = none) :
    ∀ pre : RbFilter, pre.all translatablePair = true → ∀ stmt,
      to_sql_expressions_from stmt (pre ++ (c, .oper (.comp tag v)) :: post) =
        .error (.notImplementedOperator (.comp tag v)) := by
  intro pre
  induction pre with
  | nil => intro _ stmt; simp [to_sql_expressions_from, htag]
  | cons p rest ih =>
    intro hall stmt
    obtain ⟨c2, fv⟩ := p
    simp only [List.all_cons, Bool.and_eq_true] at hall
    obtain ⟨hhead, hrest⟩ := hall
    cases fv with
    | value v2 => simpa [to_sql_expressions_from] using ih hrest _
    | oper o =>
      cases o with
      | between a b => simpa [to_sql_expressions_from] using ih hrest _
      | inValues vs => simpa [to_sql_expressions_from] using ih hrest _
      | skip => simpa [to_sql_expressions_from] using ih hrest _
      | comp tag2 v2 =>
        have hs : (py_magic_of tag2).isSome = true := by
          simpa [translatablePair] using hhead
        obtain ⟨m, hm⟩ := Option.isSome_iff_exists.mp hs
        simpa [to_sql_expressions_from, hm] using ih hrest _

/-- C7: a filter holding a generic comparator whose operator tag is not
one of the supported comparison tags (after any prefix of translatable
pairs) makes the translator fail with the not-implemented-operator
error, which carries the offending operation. -/
theorem c7_unsupported_operator (pre post : RbFilter) (c tag : String) (v : Value)
    (hpre : pre.all translatablePair = true) (htag : py_magic_of tag = none) :
    to_sql_expressions (pre ++ (c, .oper (.comp tag v)) :: post) =
      .error (.notImplementedOperator (.comp tag v)) :=
  to_sql_expressions_from_error c tag v post htag pre hpre .true_

/-- Witness for C7: a filter with one equality pair followed by a
comparator with the unrecognized tag `like` fails naming that
operation. -/
theorem c7_unsupported_operator_witness :
    to_sql_expressions [("id", FilterVal.value (.vInt 1)),
        ("name", FilterVal.oper (.comp "like" (.vStr "J")))] =
      .error (.notImplementedOperator (.comp "like" (.vStr "J"))) :=
  c7_unsupported_operator [("id", FilterVal.value (.vInt 1))] []
    "name" "like" (.vStr "J") (by decide) (by decide)

theorem formatResults_length (tbl : TableSchema) :
    ∀ rows out, formatResults tbl rows = .ok out → out.length = rows.length := by
  intro rows
  induction rows with
  | nil => intro out h; cases h; rfl
  | cons r rest ih =>
    intro out h
    simp only [formatResults] at h
    cases hfr : formatRow tbl r with
    | error e => simp [hfr] at h
    | ok r2 =>
      cases hrest : formatResults tbl rest with
      | error e => simp [hfr, hrest] at h
      | ok rest2 =>
        simp only [hfr, hrest] at h
        injection h with h2
        subst h2
        simp [ih rest2 hrest]

theorem resolveObject_some (db : Database) (s : TableState) (t : TableSchema)
    (h : s._object = some t) : resolveObject db s = (.ok t, s) := by
  unfold resolveObject
  rw [h]

theorem resolveObject_ok_nameOf (db : Database) (s s2 : TableState) (tbl : TableSchema)
    (h : resolveObject db s = (.ok tbl, s2)) : s2.nameOf = some tbl.name := by
  unfold resolveObject at h
  cases hobj : s._object with
  | some t =>
    rw [hobj] at h
    simp only [Prod.mk.injEq, Except.ok.injEq] at h
    obtain ⟨rfl, rfl⟩ := h
    simp [TableState.nameOf, hobj]
  | none =>
    rw [hobj] at h
    cases hrt : reflect_table db s.nameOf with
    | error e => simp [hrt] at h
    | ok t =>
      simp only [hrt, Prod.mk.injEq, Except.ok.injEq] at h
      obtain ⟨rfl, rfl⟩ := h
      simp [TableState.nameOf]

theorem map_projectRow_nil (l : List Row) : l.map (projectRow []) = l := by
  induction l with
  | nil => rfl
  | cons r rest ih => simp [projectRow, ih]

theorem count_expr_of_select (db : Database) (s : TableState) (w : SqlExpr)
    (rs : List Row) (s2 : TableState)
    (hsel : Table.select db s (.expr w) = (.ok rs, s2)) :
    (Table.count db s (.expr w)).1 = .ok (Int.ofNat rs.length) := by
  unfold Table.select at hsel
  unfold Table.count
  rcases hro : resolveObject db s with ⟨r1, s3⟩
  rw [hro] at hsel
  cases r1 with
  | error e => simp at hsel
  | ok tbl =>
    have hname := resolveObject_ok_nameOf db s s3 tbl hro
    simp only [resolveCols, hname, map_projectRow_nil, Prod.mk.injEq] at hsel
    obtain ⟨hfmt, rfl⟩ := hsel
    simp only [whereSem]
    rw [formatResults_length tbl _ rs hfmt]

theorem select_mapping_eq_expr (db : Database) (s : TableState) (m : RbFilter)
    (w : SqlExpr) (cols : Option (List String)) (hm : to_sql_expressions m = .ok w) :
    Table.select db s (.mapping m) cols = Table.select db s (.expr w) cols := by
  simp only [Table.select, hm, Except.map]

theorem count_mapping_eq_expr (db : Database) (s : TableState) (m : RbFilter)
    (w : SqlExpr) (hm : to_sql_expressions m = .ok w) :
    Table.count db s (.mapping m) = Table.count db s (.expr w) := by
  simp only [Table.count, hm, Except.map]

/-- C2 (amended): for a filter in the no-filter, mapping or pre-built
expression form, whenever `select` succeeds, `count` returns exactly the
length of the list materialized from `select` (in particular 0 when no
row matches).  The raw-text form is excluded: `select` executes raw text
as the whole statement while `count` uses it as a where clause. -/
theorem c2_count_matches_select (db : Database) (s : TableState) (qry : Query)
    (hq : qry.isRaw = false) (rs : List Row) (s2 : TableState)
    (hsel : Table.select db s qry = (.ok rs, s2)) :
    (Table.count db s qry).1 = .ok (Int.ofNat rs.length) := by
  cases qry with
  | raw q => simp [Query.isRaw] at hq
  | expr w => exact count_expr_of_select db s w rs s2 hsel
  | mapping m =>
    cases hm : to_sql_expressions m with
    | error e =>
      unfold Table.select at hsel
      simp [hm, Except.map] at hsel
    | ok w =>
      rw [select_mapping_eq_expr db s m w _ hm] at hsel
      rw [count_mapping_eq_expr db s m w hm]
      exact count_expr_of_select db s w rs s2 hsel
  | none =>
    have hsel2 : Table.select db s (.expr .true_) = (.ok rs, s2) := hsel
    have hcnt := count_expr_of_select db s .true_ rs s2 hsel2
    unfold Table.count at hcnt ⊢
    rcases hro : resolveObject db s with ⟨r1, s3⟩
    rw [hro] at hcnt
    cases r1 with
    | error e => exact hcnt
    | ok tbl => simpa [whereSem, evalExpr] using hcnt

/-- The schema of the `populated` table of the repository test suite
(`test_select.py`). -/
def popSchema : TableSchema where
  name := "populated"
  columns := [
    { name := "id", type_ := .sString, nullable := true },
    { name := "name", type_ := .sString, nullable := true },
    { name := "birth_date", type_ := .sDate, nullable := true },
    { name := "score", type_ := .sInteger, nullable := true }]

/-- The `populated` table with dates stored as ISO strings, as the
SQLite driver returns them (`test_select.py`).  Raw SQL as a whole
statement returns nothing and raw where-clause text matches nothing. -/
def dbPop : Database where
  schema := popSchema
  rows := [
    [("id", .vStr "a"), ("name", .vStr "Jack"),
      ("birth_date", .vStr "2000-01-01"), ("score", .vInt 100)],
    [("id", .vStr "b"), ("name", .vStr "John"),
      ("birth_date", .vStr "1990-01-01"), ("score", .vInt 200)],
    [("id", .vStr "c"), ("name", .vStr "James"),
      ("birth_date", .vStr "2020-01-01"), ("score", .vInt 300)]]
  runRaw := fun _ => []
  rawWhere := fun _ _ => false

/-- A single-column schema for the raw-text divergence example. -/
def rawDiffSchema : TableSchema where
  name := "populated"
  columns := [{ name := "id", type_ := .sString, nullable := true }]

/-- A one-row backend on which raw SQL executed as a whole statement
returns no rows while the same text coerced to a where clause matches
every row. -/
def dbRawDiff : Database where
  schema := rawDiffSchema
  rows := [[("id", .vStr "a")]]
  runRaw := fun _ => []
  rawWhere := fun _ _ => true

/-- Counterexample to C2 as stated: with the raw-text filter form,
`select` executes the text as the whole statement (0 rows here) while
`count` uses the same text as a where clause on the bound table
(1 matching row here), so `count` is not the length of the `select`
list. -/
theorem c2_counterexample :
    (Table.select dbRawDiff (Table.init (some "populated"))
      (.raw "SELECT id FROM elsewhere")).1 = .ok [] ∧
    (Table.count dbRawDiff (Table.init (some "populated"))
      (.raw "SELECT id FROM elsewhere")).1 = .ok 1 ∧
    (1 : Int) ≠ Int.ofNat ([] : List Row).length := by
  exact ⟨rfl, rfl, by decide⟩

/-- Witness for C2 (amended) at a concrete mapping filter on the
`populated` table: `select` finds one row, `count` returns 1. -/
theorem c2_count_matches_select_witness :
    (Table.count dbPop (Table.init (some "populated"))
      (.mapping [("name", FilterVal.value (.vStr "John"))])).1 =
      .ok (Int.ofNat (List.length
        [[("id", Value.vStr "b"), ("name", Value.vStr "John"),
          ("birth_date", Value.vDate 1990 1 1), ("score", Value.vInt 200)]])) :=
  c2_count_matches_select dbPop (Table.init (some "populated"))
    (.mapping [("name", FilterVal.value (.vStr "John"))]) rfl
    [[("id", Value.vStr "b"), ("name", Value.vStr "John"),
      ("birth_date", Value.vDate 1990 1 1), ("score", Value.vInt 200)]]
    { _name := some "populated", _object := some popSchema, engine := .engine }
    (by rfl)

/-- The resolver set named by the claimed schema-handle state machine:
explicit `create` / `reflect`, or a structural access that lazily
triggers reflection. -/
def claimedResolver (op : TableOp) : Bool :=
  op.isCreateOrReflect || op.isStructuralAccess

/-- The schema-handle state machine exactly as claimed: Unresolved to
Resolved only via `create` / `reflect` (explicit or lazily triggered),
Resolved back to Unresolved only via name reassignment, and no other
operation changes the cached handle. -/
def schemaHandleClaim (db : Database) : Prop :=
  (∀ op s, (step db op s)._object = none → s._object ≠ none → ∃ v, op = .setName v) ∧
  (∀ op s, s._object = none → (step db op s)._object ≠ none → claimedResolver op = true) ∧
  (∀ op s, (step db op s)._object ≠ s._object →
    claimedResolver op = true ∨ ∃ v, op = .setName v)

theorem select_state_of_some (db : Database) (s : TableState) (t : TableSchema)
    (q : Query) (c : Option (List String)) (h : s._object = some t) :
    (Table.select db s q c).2 = s := by
  have hro := resolveObject_some db s t h
  cases q with
  | raw qq =>
    cases hn : s.nameOf with
    | none => simp [Table.select, hn]
    | some nm => simp [Table.select, hn, hro]
  | none =>
    cases hc : resolveCols t c with
    | error e => simp [Table.select, hro, hc]
    | ok cols =>
      cases hn : s.nameOf with
      | none => simp [Table.select, hro, hc, hn]
      | some nm => simp [Table.select, hro, hc, hn]
  | expr w =>
    cases hc : resolveCols t c with
    | error e => simp [Table.select, hro, hc]
    | ok cols =>
      cases hn : s.nameOf with
      | none => simp [Table.select, hro, hc, hn]
      | some nm => simp [Table.select, hro, hc, hn]
  | mapping m =>
    cases hm : to_sql_expressions m with
    | error e => simp [Table.select, hm, Except.map]
    | ok w =>
      cases hc : resolveCols t c with
      | error e => simp [Table.select, hro, hm, Except.map, hc]
      | ok cols =>
        cases hn : s.nameOf with
        | none => simp [Table.select, hro, hm, Except.map, hc, hn]
        | some nm => simp [Table.select, hro, hm, Except.map, hc, hn]

theorem count_state_of_some (db : Database) (s : TableState) (t : TableSchema)
    (w : Query) (h : s._object = some t) : (Table.count db s w).2 = s := by
  have hro := resolveObject_some db s t h
  cases w with
  | none => simp [Table.count, hro]
  | raw q => simp [Table.count, hro]
  | expr e => simp [Table.count, hro]
  | mapping m =>
    cases hm : to_sql_expressions m with
    | error e => simp [Table.count, hro, hm, Except.map]
    | ok w2 => simp [Table.count, hro, hm, Except.map]

theorem delete_state_of_some (db : Database) (s : TableState) (t : TableSchema)
    (w : WhereArg) (h : s._object = some t) : (Table.delete db s w).2 = s := by
  have hro := resolveObject_some db s t h
  cases w with
  | raw q => simp [Table.delete, hro]
  | expr e => simp [Table.delete, hro]
  | mapping m =>
    cases hm : to_sql_expressions m with
    | error e => simp [Table.delete, hm, Except.map]
    | ok w2 => simp [Table.delete, hro, hm, Except.map]

theorem update_state_of_some (db : Database) (s : TableState) (t : TableSchema)
    (w : WhereArg) (vals : Row) (h : s._object = some t) :
    (Table.update db s w vals).2 = s := by
  have hro := resolveObject_some db s t h
  cases w with
  | raw q => simp [Table.update, hro]
  | expr e => simp [Table.update, hro]
  | mapping m =>
    cases hm : to_sql_expressions m with
    | error e => simp [Table.update, hm, Except.map]
    | ok w2 => simp [Table.update, hro, hm, Except.map]

theorem insert_state_of_some (db : Database) (s : TableState) (t : TableSchema)
    (data : Row) (h : s._object = some t) : (Table.insert db s data).2 = s := by
  have hro := resolveObject_some db s t h
  simp [Table.insert, hro]

/-- Counterexample to C3 as stated: assigning a table object directly to
the `object` property also moves the handle from Unresolved to Resolved,
and it is neither `create`, nor `reflect`, nor a lazy-triggering
structural access. -/
theorem c3_counterexample : ¬ schemaHandleClaim dbPop := by
  intro h
  have h2 := h.2.1 (.setObject popSchema) (Table.init (some "x")) rfl (by
    intro hx
    exact Option.noConfusion hx)
  exact Bool.noConfusion h2

/-- C3 (amended): the cached schema handle becomes unresolved only
through the name setter; it becomes resolved only through `create`,
`reflect`, a structural access (lazy reflection), or direct assignment
to the `object` property; and no operation outside these ever changes
it. -/
theorem c3_schema_state_machine (db : Database) (op : TableOp) (s : TableState) :
    ((step db op s)._object = none → s._object ≠ none → ∃ v, op = .setName v) ∧
    (s._object = none → (step db op s)._object ≠ none →
      claimedResolver op = true ∨ ∃ t, op = .setObject t) ∧
    ((step db op s)._object ≠ s._object →
      claimedResolver op = true ∨ (∃ v, op = .setName v) ∨ ∃ t, op = .setObject t) := by
  cases op with
  | setName v =>
    refine ⟨fun _ _ => ⟨v, rfl⟩, fun _ h2 => absurd rfl h2, fun _ => .inr (.inl ⟨v, rfl⟩)⟩
  | setObject t =>
    exact ⟨fun h1 _ => Option.noConfusion h1, fun _ _ => .inr ⟨t, rfl⟩,
      fun _ => .inr (.inr ⟨t, rfl⟩)⟩
  | createOp cols =>
    refine ⟨?_, fun _ _ => .inl rfl, fun _ => .inl rfl⟩
    intro hnone hneq
    cases hobj : s._object with
    | none => exact absurd hobj hneq
    | some t => simp [step, Table.create, TableState.nameOf, hobj] at hnone
  | reflectOp =>
    refine ⟨?_, fun _ _ => .inl rfl, fun _ => .inl rfl⟩
    intro hnone hneq
    cases hobj : s._object with
    | none => exact absurd hobj hneq
    | some t => simp [step, Table.reflect, reflect_table, TableState.nameOf, hobj] at hnone
  | selectOp q c =>
    refine ⟨?_, fun _ _ => .inl rfl, fun _ => .inl rfl⟩
    intro hnone hneq
    cases hobj : s._object with
    | none => exact absurd hobj hneq
    | some t =>
      rw [show step db (.selectOp q c) s = (Table.select db s q c).2 from rfl,
        select_state_of_some db s t q c hobj] at hnone
      exact absurd (hnone ▸ hobj) (by simp [hnone])
  | insertOp data =>
    refine ⟨?_, fun _ _ => .inl rfl, fun _ => .inl rfl⟩
    intro hnone hneq
    cases hobj : s._object with
    | none => exact absurd hobj hneq
    | some t =>
      rw [show step db (.insertOp data) s = (Table.insert db s data).2 from rfl,
        insert_state_of_some db s t data hobj] at hnone
      rw [hnone] at hobj
      exact Option.noConfusion hobj
  | deleteOp w =>
    refine ⟨?_, fun _ _ => .inl rfl, fun _ => .inl rfl⟩
    intro hnone hneq
    cases hobj : s._object with
    | none => exact absurd hobj hneq
    | some t =>
      rw [show step db (.deleteOp w) s = (Table.delete db s w).2 from rfl,
        delete_state_of_some db s t w hobj] at hnone
      rw [hnone] at hobj
      exact Option.noConfusion hobj
  | updateOp w vals =>
    refine ⟨?_, fun _ _ => .inl rfl, fun _ => .inl rfl⟩
    intro hnone hneq
    cases hobj : s._object with
    | none => exact absurd hobj hneq
    | some t =>
      rw [show step db (.updateOp w vals) s = (Table.update db s w vals).2 from rfl,
        update_state_of_some db s t w vals hobj] at hnone
      rw [hnone] at hobj
      exact Option.noConfusion hobj
  | countOp q =>
    refine ⟨?_, fun _ _ => .inl rfl, fun _ => .inl rfl⟩
    intro hnone hneq
    cases hobj : s._object with
    | none => exact absurd hobj hneq
    | some t =>
      rw [show step db (.countOp q) s = (Table.count db s q).2 from rfl,
        count_state_of_some db s t q hobj] at hnone
      rw [hnone] at hobj
      exact Option.noConfusion hobj
  | executeOp q =>
    exact ⟨fun h1 h2 => absurd h1 h2, fun h1 h2 => absurd h1 h2, fun h => absurd rfl h⟩
  | rollbackOp =>
    exact ⟨fun h1 h2 => absurd h1 h2, fun h1 h2 => absurd h1 h2, fun h => absurd rfl h⟩
  | commitOp =>
    exact ⟨fun h1 h2 => absurd h1 h2, fun h1 h2 => absurd h1 h2, fun h => absurd rfl h⟩
  | openTransactionOp =>
    exact ⟨fun h1 h2 => absurd h1 h2, fun h1 h2 => absurd h1 h2, fun h => absurd rfl h⟩

/-- Witness for C3 (amended): reassigning the name on a resolved
accessor is the (only) transition back to Unresolved. -/
theorem c3_schema_state_machine_witness :
    ∃ v, TableOp.setName none = TableOp.setName v :=
  (c3_schema_state_machine dbPop (.setName none)
    { _name := some "populated", _object := some popSchema, engine := .engine }).1
    rfl (fun hx => Option.noConfusion hx)

/-- C5: `update` and `delete` accept the same three filter forms as
`select` and handle each form as `select` does, in the sense the claim
itself glosses: a mapping is translated by the same
`to_sql_expressions` translator — so each of the three operations given
the mapping behaves exactly as given the translated expression — while
a pre-built expression and raw text pass through unmodified (into the
where clause of the delete / update statement, and verbatim to the
backend in `select`). -/
theorem c5_filter_forms (db : Database) (s : TableState) (m : RbFilter) (w : SqlExpr)
    (q : String) (e : SqlExpr) (vals : Row) (hm : to_sql_expressions m = .ok w) :
    (Table.delete db s (.mapping m) = Table.delete db s (.expr w)) ∧
    (Table.update db s (.mapping m) vals = Table.update db s (.expr w) vals) ∧
    (∀ cols, Table.select db s (.mapping m) cols = Table.select db s (.expr w) cols) ∧
    (∀ stmt s2, Table.delete db s (.expr e) = (.ok stmt, s2) →
      stmt.whereClause = .clause e) ∧
    (∀ stmt s2, Table.update db s (.expr e) vals = (.ok stmt, s2) →
      stmt.whereClause = .clause e) ∧
    (∀ stmt s2, Table.delete db s (.raw q) = (.ok stmt, s2) →
      stmt.whereClause = .rawText q) ∧
    (∀ stmt s2, Table.update db s (.raw q) vals = (.ok stmt, s2) →
      stmt.whereClause = .rawText q) ∧
    (s.nameOf = none → (Table.select db s (.raw q)).1 = .ok (db.runRaw q)) ∧
    (∀ tbl s2, resolveObject db s = (.ok tbl, s2) → s.nameOf ≠ none →
      (Table.select db s (.raw q)).1 = formatResults tbl (db.runRaw q)) := by
  refine ⟨?_, ?_, ?_, ?_, ?_, ?_, ?_, ?_, ?_⟩
  · simp only [Table.delete, hm, Except.map]
  · simp only [Table.update, hm, Except.map]
  · exact fun cols => select_mapping_eq_expr db s m w cols hm
  · intro stmt s2 h
    rcases hro : resolveObject db s with ⟨r, s3⟩
    cases r with
    | error er => simp [Table.delete, hro] at h
    | ok tbl =>
      simp only [Table.delete, hro, Prod.mk.injEq, Except.ok.injEq] at h
      obtain ⟨h1, _⟩ := h
      rw [← h1]
  · intro stmt s2 h
    rcases hro : resolveObject db s with ⟨r, s3⟩
    cases r with
    | error er => simp [Table.update, hro] at h
    | ok tbl =>
      simp only [Table.update, hro, Prod.mk.injEq, Except.ok.injEq] at h
      obtain ⟨h1, _⟩ := h
      rw [← h1]
  · intro stmt s2 h
    rcases hro : resolveObject db s with ⟨r, s3⟩
    cases r with
    | error er => simp [Table.delete, hro] at h
    | ok tbl =>
      simp only [Table.delete, hro, Prod.mk.injEq, Except.ok.injEq] at h
      obtain ⟨h1, _⟩ := h
      rw [← h1]
  · intro stmt s2 h
    rcases hro : resolveObject db s with ⟨r, s3⟩
    cases r with
    | error er => simp [Table.update, hro] at h
    | ok tbl =>
      simp only [Table.update, hro, Prod.mk.injEq, Except.ok.injEq] at h
      obtain ⟨h1, _⟩ := h
      rw [← h1]
  · intro hname
    simp [Table.select, hname]
  · intro tbl s2 hro hname
    cases hn : s.nameOf with
    | none => exact absurd hn hname
    | some nm => simp [Table.select, hn, hro]

/-- Witness for C5 at a concrete mapping, expression, raw text and
values on the `populated` table. -/
theorem c5_filter_forms_witness :
    (Table.delete dbPop (Table.init (some "populated"))
        (.mapping [("name", FilterVal.value (.vStr "John"))]) =
      Table.delete dbPop (Table.init (some "populated"))
        (.expr (SqlExpr.true_.and (.eq "name" (.vStr "John"))))) ∧
    (Table.update dbPop (Table.init (some "populated"))
        (.mapping [("name", FilterVal.value (.vStr "John"))]) [("score", .vInt 1)] =
      Table.update dbPop (Table.init (some "populated"))
        (.expr (SqlExpr.true_.and (.eq "name" (.vStr "John")))) [("score", .vInt 1)]) ∧
    (∀ cols, Table.select dbPop (Table.init (some "populated"))
        (.mapping [("name", FilterVal.value (.vStr "John"))]) cols =
      Table.select dbPop (Table.init (some "populated"))
        (.expr (SqlExpr.true_.and (.eq "name" (.vStr "John")))) cols) ∧
    (∀ stmt s2, Table.delete dbPop (Table.init (some "populated"))
        (.expr (.eq "id" (.vStr "a"))) = (.ok stmt, s2) →
      stmt.whereClause = .clause (.eq "id" (.vStr "a"))) ∧
    (∀ stmt s2, Table.update dbPop (Table.init (some "populated"))
        (.expr (.eq "id" (.vStr "a"))) [("score", .vInt 1)] = (.ok stmt, s2) →
      stmt.whereClause = .clause (.eq "id" (.vStr "a"))) ∧
    (∀ stmt s2, Table.delete dbPop (Table.init (some "populated"))
        (.raw "id = 1") = (.ok stmt, s2) →
      stmt.whereClause = .rawText "id = 1") ∧
    (∀ stmt s2, Table.update dbPop (Table.init (some "populated"))
        (.raw "id = 1") [("score", .vInt 1)] = (.ok stmt, s2) →
      stmt.whereClause = .rawText "id = 1") ∧
    ((Table.init (some "populated")).nameOf = none →
      (Table.select dbPop (Table.init (some "populated")) (.raw "id = 1")).1 =
        .ok (dbPop.runRaw "id = 1")) ∧
    (∀ tbl s2, resolveObject dbPop (Table.init (some "populated")) = (.ok tbl, s2) →
      (Table.init (some "populated")).nameOf ≠ none →
      (Table.select dbPop (Table.init (some "populated")) (.raw "id = 1")).1 =
        formatResults tbl (dbPop.runRaw "id = 1")) :=
  c5_filter_forms dbPop (Table.init (some "populated"))
    [("name", FilterVal.value (.vStr "John"))]
    (SqlExpr.true_.and (.eq "name" (.vStr "John")))
    "id = 1" (.eq "id" (.vStr "a")) [("score", .vInt 1)] rfl

theorem date_fromisoformat_shape (s : String) (r : Value)
    (h : date_fromisoformat s = .ok r) : ∃ y m d, r = .vDate y m d := by
  unfold date_fromisoformat at h
  cases hd : date_from_chars s.data with
  | none => simp [hd] at h
  | some ymd =>
    obtain ⟨y, m, d⟩ := ymd
    simp only [hd, Except.ok.injEq] at h
    exact ⟨y, m, d, h.symm⟩

theorem datetime_fromisoformat_shape (s : String) (r : Value)
    (h : datetime_fromisoformat s = .ok r) :
    ∃ y m d hh mi ss, r = .vDatetime y m d hh mi ss := by
  simp only [datetime_fromisoformat] at h
  split at h
  · cases hd : date_from_chars s.data with
    | none => simp [hd] at h
    | some ymd =>
      obtain ⟨y, m, d⟩ := ymd
      simp only [hd, Except.ok.injEq] at h
      exact ⟨y, m, d, 0, 0, 0, h.symm⟩
  · cases hd : date_from_chars (s.data.take 10) with
    | none => simp [hd] at h
    | some ymd =>
      obtain ⟨y, m, d⟩ := ymd
      cases htm : time_from_iso (s.data.drop 11) with
      | none => simp [hd, htm] at h
      | some t3 =>
        obtain ⟨hh, mi, ss⟩ := t3
        simp only [hd, htm, Except.ok.injEq] at h
        exact ⟨y, m, d, hh, mi, ss, h.symm⟩

/-- C6: for a column declared date or datetime, a cell already of the
declared native type is returned unchanged by `to_native`; a cell that
arrived as a string is parsed with the ISO-8601 `fromisoformat` parsing
rules of the respective type; and every successful conversion delivers a
non-string value to the caller. -/
theorem c6_temporal_read (t : SqlType) (n : Bool) (v : Value)
    (ht : t = .sDate ∨ t = .sDateTime) :
    (isinstance v t.python_type = true → to_native v t n = .ok v) ∧
    (∀ s2, v = .vStr s2 → to_native v t n =
      (if t = .sDate then date_fromisoformat s2 else datetime_fromisoformat s2)) ∧
    (∀ r, to_native v t n = .ok r → r.isStr = false) := by
  refine ⟨fun h => by simp [to_native, h], ?_, ?_⟩
  · intro s2 hv
    subst hv
    cases ht with
    | inl h => subst h; simp [to_native, isinstance, SqlType.python_type]
    | inr h => subst h; simp [to_native, isinstance, SqlType.python_type]
  · intro r hr
    cases ht with
    | inl h =>
      subst h
      cases v with
      | vStr s2 =>
        have hr2 : date_fromisoformat s2 = .ok r := by
          simpa [to_native, isinstance, SqlType.python_type] using hr
        obtain ⟨y, m, d, rfl⟩ := date_fromisoformat_shape s2 r hr2
        rfl
      | vNone =>
        cases n with
        | true =>
          injection hr with h2
          rw [← h2]; rfl
        | false => exact Except.noConfusion hr
      | vBool b => cases n <;> exact Except.noConfusion hr
      | vInt i => cases n <;> exact Except.noConfusion hr
      | vDate y m d =>
        injection hr with h2
        rw [← h2]; rfl
      | vDatetime y m d hh mi ss =>
        injection hr with h2
        rw [← h2]; rfl
    | inr h =>
      subst h
      cases v with
      | vStr s2 =>
        have hr2 : datetime_fromisoformat s2 = .ok r := by
          simpa [to_native, isinstance, SqlType.python_type] using hr
        obtain ⟨y, m, d, hh, mi, ss, rfl⟩ := datetime_fromisoformat_shape s2 r hr2
        rfl
      | vNone =>
        cases n with
        | true =>
          injection hr with h2
          rw [← h2]; rfl
        | false => exact Except.noConfusion hr
      | vBool b => cases n <;> exact Except.noConfusion hr
      | vInt i => cases n <;> exact Except.noConfusion hr
      | vDate y m d => cases n <;> exact Except.noConfusion hr
      | vDatetime y m d hh mi ss =>
        injection hr with h2
        rw [← h2]; rfl

/-- Witness for C6 at the ISO date string cell of the test scenario. -/
theorem c6_temporal_read_witness :
    (isinstance (Value.vStr "2000-01-01") SqlType.sDate.python_type = true →
      to_native (.vStr "2000-01-01") .sDate true = .ok (.vStr "2000-01-01")) ∧
    (∀ s2, Value.vStr "2000-01-01" = .vStr s2 →
      to_native (.vStr "2000-01-01") .sDate true =
        (if SqlType.sDate = SqlType.sDate then date_fromisoformat s2
          else datetime_fromisoformat s2)) ∧
    (∀ r, to_native (.vStr "2000-01-01") .sDate true = .ok r → r.isStr = false) :=
  c6_temporal_read .sDate true (.vStr "2000-01-01") (Or.inl rfl)

/-- C8 (amended): a read-time cell value that does not match the
declared native type, is not a string under a temporal column, and is
not a permitted null, is coerced via direct Python type construction
from the raw value; a failing construction simply propagates the
underlying construction error. -/
theorem c8_coercion_fallback (v : Value) (t : SqlType) (n : Bool)
    (h1 : isinstance v t.python_type = false)
    (h2 : ∀ s2, v = .vStr s2 → t.python_type ≠ .pDate ∧ t.python_type ≠ .pDatetime)
    (h3 : ¬(n = true ∧ v = .vNone)) :
    to_native v t n = pyConstruct t.python_type v := by
  cases t <;> cases v <;>
  first
  | exact Bool.noConfusion h1
  | exact absurd rfl (h2 _ rfl).1
  | exact absurd rfl (h2 _ rfl).2
  | (cases n with
    | true =>
      first
      | rfl
      | exact absurd (And.intro rfl rfl) h3
    | false => rfl)

/-- Counterexample to C8 as stated: the failing coercion of the cell
`"abc"` under an integer column raises the raw `ValueError` of `int()`;
no error naming the column and the two types is raised (`to_native` is
not even passed the column name). -/
theorem c8_counterexample :
    (∃ msg, to_native (.vStr "abc") .sInteger false = .error (.valueError msg)) ∧
    (∀ col src tgt,
      to_native (.vStr "abc") .sInteger false ≠ .error (.typeCoercion col src tgt)) := by
  constructor
  · exact ⟨_, rfl⟩
  · intro col src tgt h
    have h0 : to_native (.vStr "abc") .sInteger false =
        .error (.valueError ("invalid literal for int with base 10: " ++ "abc")) := rfl
    rw [h0] at h
    injection h with h2
    exact Err.noConfusion h2

/-- Witness for C8 (amended) at the failing cell `"abc"` under an
integer column. -/
theorem c8_coercion_fallback_witness :
    to_native (.vStr "abc") .sInteger false =
      pyConstruct SqlType.sInteger.python_type (.vStr "abc") :=
  c8_coercion_fallback (.vStr "abc") .sInteger false rfl
    (fun _ _ => ⟨fun hp => PyType.noConfusion hp, fun hp => PyType.noConfusion hp⟩)
    (fun hc => Bool.noConfusion hc.1)

/-- C9: calling `rollback` or `commit` on an accessor with no open
transaction fails with an error (the `AttributeError` that the
`get_transaction` access path raises, the concrete realization of the
no-active-transaction failure). -/
theorem c9_no_transaction (s : TableState) (h : s.hasOpenTransaction = false) :
    (∃ e, Table.rollback s = .error e) ∧ (∃ e2, Table.commit s = .error e2) := by
  cases heng : s.engine with
  | engine =>
    exact ⟨⟨.attributeError "Engine object has no attribute get_transaction",
        by simp [Table.rollback, heng]⟩,
      ⟨.attributeError "Engine object has no attribute get_transaction",
        by simp [Table.commit, heng]⟩⟩
  | conn tr =>
    cases tr with
    | none =>
      exact ⟨⟨.attributeError "NoneType object has no attribute rollback",
          by simp [Table.rollback, heng]⟩,
        ⟨.attributeError "NoneType object has no attribute commit",
          by simp [Table.commit, heng]⟩⟩
    | some u => simp [TableState.hasOpenTransaction, heng] at h

/-- An accessor bound to a plain engine: no transaction is open. -/
def engineOnlyState : TableState :=
  { _name := some "t", _object := none, engine := .engine }

/-- Witness for C9 on a plain-engine accessor (no transaction open). -/
theorem c9_no_transaction_witness :
    (∃ e, Table.rollback engineOnlyState = .error e) ∧
    (∃ e2, Table.commit engineOnlyState = .error e2) :=
  c9_no_transaction engineOnlyState rfl

/-- C10: with no bound table name (the raw-SQL escape hatch), `select`
returns the backend rows exactly as delivered — no type-bridge
conversion, temporal strings stay strings — and the accessor state is
untouched. -/
theorem c10_raw_select_without_table (db : Database) (s : TableState) (q : String)
    (h : s.nameOf = none) :
    Table.select db s (.raw q) = (.ok (db.runRaw q), s) := by
  simp [Table.select, h]

/-- The backend of the table-less select scenario of
`test_select_without_table`: the driver hands back rows whose
`birth_date` cells are ISO strings. -/
def dbNoTable : Database where
  schema := popSchema
  rows := []
  runRaw := fun _ => [
    [("id", .vStr "a"), ("name", .vStr "Jack"),
      ("birth_date", .vStr "2000-01-01"), ("score", .vInt 100)],
    [("id", .vStr "b"), ("name", .vStr "John"),
      ("birth_date", .vStr "1990-01-01"), ("score", .vInt 200)]]
  rawWhere := fun _ _ => false

/-- Witness for C10: the module-level `select(raw, engine=...)` call
with no table returns the driver rows verbatim, date strings included. -/
theorem c10_raw_select_without_table_witness :
    Table.select dbNoTable (Table.init none)
      (.raw "SELECT * FROM populated where name in (Jack, John)") =
    (.ok (dbNoTable.runRaw "SELECT * FROM populated where name in (Jack, John)"),
      Table.init none) :=
  c10_raw_select_without_table dbNoTable (Table.init none)
    "SELECT * FROM populated where name in (Jack, John)" rfl
